import Mathlib

/-!
Verification of the double-buffered frame handoff and page-streaming display
pipeline of the conducteensy repository.

Shallow embedding of:
  * `FrameBuffer<frame_size, num_frames>`   (framebuffer.h)
  * `PagedDisplayDriver<display_driver>`    (page_display_driver.h)
  * `display::Update`, `display::Flush`, `GRAPHICS_BEGIN_FRAME` / `GRAPHICS_END_FRAME`
    (display.h / display.cpp)
  * `ILI9341_Driver::SendPage`              (ILI9341_Driver.cpp)

All size_t arithmetic is modelled over `Nat` with explicit reduction modulo
`2 ^ 32` (the target is a Teensy 4.1, a 32-bit ARM Cortex-M7, so `size_t` is
32 bits wide).  Pointers are modelled as byte addresses (`Nat`); the pointer
returned by `FrameBuffer::readable_frame`/`writeable_frame` is identified with
the index of the slot it points at, and `frames_[i]` starts at byte address
`i * kFrameSize` when address-level arithmetic is needed.
-/

namespace Conducteensy

/-- Bit width of `size_t` on the target (32-bit ARM). -/
def wordBits : Nat := 32

/-- Modulus of `size_t` arithmetic, `2 ^ 32`. -/
def wordMod : Nat := 2 ^ wordBits

/-- `SH1106_128x64_Driver::kFrameSize = 128 * 64 / 8` (SH1106_128x64_driver.h,
also `ILI9341_Driver::kFrameSize`). -/
def kFrameSize : Nat := 128 * 64 / 8

/-- `kNumPages = 8` (SH1106_128x64_driver.h / ILI9341_Driver.h). -/
def kNumPages : Nat := 8

/-- `kPageSize = kFrameSize / kNumPages = 128`. -/
def kPageSize : Nat := kFrameSize / kNumPages

/-! ### FrameBuffer (framebuffer.h)

State of `FrameBuffer<frame_size, num_frames>`.  The byte content of slot `i`
(`frames_[i]`, a `uint8_t[frame_size]`) is abstracted to a single value of an
arbitrary type `α`; `N` is the template parameter `num_frames` (`kNumFrames`).
The three `size_t` members hold values below `wordMod`. -/
structure FrameBuffer (α : Type) (N : Nat) where
  frames : Nat → α
  write_frame : Nat
  read_frame : Nat
  readable_count : Nat

namespace FrameBuffer

variable {α : Type} {N : Nat}

/-- `Init()`: zero the slots, reset all three indices (framebuffer.h lines 17-22).
`blank` is the all-zero slot content produced by the `memset`. -/
def init (blank : α) : FrameBuffer α N :=
  ⟨fun _ => blank, 0, 0, 0⟩

/-- `writeable_frame()`: null when `readable_count_ >= kNumFrames`, otherwise a
pointer to `frames_[write_frame_]`, modelled as the slot index
(framebuffer.h lines 24-28).  No state is mutated. -/
def writeable_frame (fb : FrameBuffer α N) : Option Nat :=
  if N ≤ fb.readable_count then none else some fb.write_frame

/-- `writeable()`: `readable_count_ < kNumFrames` (framebuffer.h lines 30-32). -/
def writeable (fb : FrameBuffer α N) : Bool :=
  decide (fb.readable_count < N)

/-- `written()`: advance `write_frame_` modulo `kNumFrames` and increment
`readable_count_`, both in `size_t` arithmetic (framebuffer.h lines 34-37). -/
def written (fb : FrameBuffer α N) : FrameBuffer α N :=
  { fb with
    write_frame := ((fb.write_frame + 1) % wordMod) % N
    readable_count := (fb.readable_count + 1) % wordMod }

/-- `readable_frame()`: null when `readable_count_` is zero, otherwise a pointer
to `frames_[read_frame_]`, modelled as the slot index (framebuffer.h lines 39-43). -/
def readable_frame (fb : FrameBuffer α N) : Option Nat :=
  if fb.readable_count = 0 then none else some fb.read_frame

/-- `readable()`: `readable_count_ > 0` (framebuffer.h lines 45-47). -/
def readable (fb : FrameBuffer α N) : Bool :=
  decide (0 < fb.readable_count)

/-- `read()`: advance `read_frame_` modulo `kNumFrames` and decrement
`readable_count_`; the decrement is unsigned `size_t` arithmetic, so from 0 it
wraps to `wordMod - 1` (framebuffer.h lines 49-52). -/
def read (fb : FrameBuffer α N) : FrameBuffer α N :=
  { fb with
    read_frame := ((fb.read_frame + 1) % wordMod) % N
    readable_count := (fb.readable_count + (wordMod - 1)) % wordMod }

/-- The producer writing content `x` through the pointer returned by
`writeable_frame()` (the drawing that happens between `GRAPHICS_BEGIN_FRAME`
and `GRAPHICS_END_FRAME` targets `frames_[slot]`). -/
def storeAt (fb : FrameBuffer α N) (slot : Nat) (x : α) : FrameBuffer α N :=
  { fb with frames := fun i => if i = slot then x else fb.frames i }

end FrameBuffer

/-! ### Legal operation sequences on the pool

A producer step (`commit x`) is the source's acquire-draw-publish sequence:
`writeable_frame()` (must succeed), draw `x` into the returned slot, then
`written()`.  A consumer step (`release`) is the source's peek-drain-release
sequence: `readable_frame()` (must succeed), fully drain the returned slot
(its value is emitted), then `read()`.  A sequence is *legal* when every
guard succeeds; `poolRun` returns `none` otherwise. -/

inductive PoolOp (α : Type) where
  | commit (x : α)
  | release

/-- One legal pool operation; `none` when the operation's guard fails. The
second component is the slot value drained by a `release`. -/
def poolStep {α : Type} {N : Nat} (fb : FrameBuffer α N) :
    PoolOp α → Option (FrameBuffer α N × Option α)
  | .commit x =>
    match fb.writeable_frame with
    | none => none
    | some slot => some ((fb.storeAt slot x).written, none)
  | .release =>
    match fb.readable_frame with
    | none => none
    | some slot => some (fb.read, some (fb.frames slot))

/-- Run a sequence of pool operations, collecting the drained slot values in
order.  `none` when some operation in the sequence is illegal. -/
def poolRun {α : Type} {N : Nat} (fb : FrameBuffer α N) :
    List (PoolOp α) → Option (FrameBuffer α N × List α)
  | [] => some (fb, [])
  | op :: ops =>
    match poolStep fb op with
    | none => none
    | some (fb1, out) =>
      match poolRun fb1 ops with
      | none => none
      | some (fb2, outs) => some (fb2, out.toList ++ outs)

/-- The values committed by a sequence of pool operations, in order. -/
def committedVals {α : Type} : List (PoolOp α) → List α
  | [] => []
  | .commit x :: ops => x :: committedVals ops
  | .release :: ops => committedVals ops

/-- Number of `commit` operations in a sequence. -/
def numCommits {α : Type} : List (PoolOp α) → Nat
  | [] => 0
  | .commit _ :: ops => numCommits ops + 1
  | .release :: ops => numCommits ops

/-- Number of `release` operations in a sequence. -/
def numReleases {α : Type} : List (PoolOp α) → Nat
  | [] => 0
  | .commit _ :: ops => numReleases ops
  | .release :: ops => numReleases ops + 1

/-! ### Arithmetic helpers for 32-bit `size_t` -/

lemma dec_wrap {c : Nat} (h0 : 0 < c) (hc : c < wordMod) :
    (c + (wordMod - 1)) % wordMod = c - 1 := by
  have hw : wordMod = 4294967296 := rfl
  have h1 : c + (wordMod - 1) = (c - 1) + 1 * wordMod := by omega
  rw [h1, Nat.add_mul_mod_self_right, Nat.mod_eq_of_lt (by omega)]

lemma mod_ne_of_close {N a b : Nat} (_hN : 0 < N) (hab : a < b) (hbN : b - a < N) :
    b % N ≠ a % N := by
  intro h
  have hmod : Nat.ModEq N a b := h.symm
  have hdvd : N ∣ b - a := (Nat.modEq_iff_dvd' hab.le).mp hmod
  have := Nat.le_of_dvd (by omega) hdvd
  omega

/-- Wrapped `size_t` increment of a ring index followed by the `% kNumFrames`:
the inner `% wordMod` is invisible for in-range indices. -/
lemma ring_advance {N a : Nat} (hNw : N < wordMod) (ha : a < N) :
    ((a + 1) % wordMod) % N = (a + 1) % N := by
  rw [Nat.mod_eq_of_lt (show a + 1 < wordMod by omega)]

/-! ### The reachable-state invariant of the pool

`cs` is the list of values committed so far, `m` the number of releases so
far.  The invariant characterises every pool state reachable by a legal
sequence from `FrameBuffer.init`. -/

def PoolInv {α : Type} {N : Nat} (cs : List α) (m : Nat) (fb : FrameBuffer α N) : Prop :=
  m ≤ cs.length ∧ cs.length - m ≤ N ∧
  fb.readable_count = cs.length - m ∧
  fb.write_frame = cs.length % N ∧
  fb.read_frame = m % N ∧
  ∀ i, m ≤ i → ∀ h : i < cs.length, fb.frames (i % N) = cs.get ⟨i, h⟩

lemma poolInv_init {α : Type} {N : Nat} (_hN : 0 < N) (blank : α) :
    PoolInv ([] : List α) 0 (FrameBuffer.init blank (N := N)) := by
  refine ⟨Nat.le_refl _, by simp, rfl, by simp [FrameBuffer.init],
    by simp [FrameBuffer.init], ?_⟩
  intro i _ h
  simp at h

lemma poolInv_commit {α : Type} {N : Nat} (hN : 0 < N) (hNw : N < wordMod)
    {cs : List α} {m : Nat} {fb : FrameBuffer α N}
    (h : PoolInv cs m fb) (hg : fb.readable_count < N) (x : α) :
    PoolInv (cs ++ [x]) m ((fb.storeAt fb.write_frame x).written) := by
  obtain ⟨h1, h2, h3, h4, h5, h6⟩ := h
  have hlen : (cs ++ [x]).length = cs.length + 1 := by simp
  have hwlt : cs.length % N < N := Nat.mod_lt _ hN
  have hcnt : fb.readable_count = cs.length - m := h3
  refine ⟨?_, ?_, ?_, ?_, ?_, ?_⟩
  · rw [hlen]; omega
  · rw [hlen]; omega
  · show (fb.readable_count + 1) % wordMod = (cs ++ [x]).length - m
    rw [hlen, h3, Nat.mod_eq_of_lt (by omega)]
    omega
  · show ((fb.write_frame + 1) % wordMod) % N = (cs ++ [x]).length % N
    rw [hlen, h4, ring_advance hNw (Nat.mod_lt _ hN), Nat.mod_add_mod]
  · show fb.read_frame = m % N
    exact h5
  · intro i him hi
    show (if i % N = fb.write_frame then x else fb.frames (i % N)) = (cs ++ [x]).get ⟨i, hi⟩
    rw [hlen] at hi
    by_cases hil : i = cs.length
    · subst hil
      rw [if_pos (by rw [h4])]
      rw [List.get_eq_getElem]
      rw [List.getElem_append_right (Nat.le_refl _)]
      simp
    · have hilt : i < cs.length := by omega
      have hne : cs.length % N ≠ i % N :=
        mod_ne_of_close hN hilt (by omega)
      rw [if_neg (by rw [h4]; exact fun hcon => hne hcon.symm)]
      rw [List.get_eq_getElem, List.getElem_append_left hilt]
      rw [← List.get_eq_getElem cs ⟨i, hilt⟩]
      exact h6 i him hilt

lemma poolInv_release {α : Type} {N : Nat} (hN : 0 < N) (hNw : N < wordMod)
    {cs : List α} {m : Nat} {fb : FrameBuffer α N}
    (h : PoolInv cs m fb) (hg : 0 < fb.readable_count) :
    PoolInv cs (m + 1) fb.read ∧
    ∃ hm : m < cs.length, fb.frames fb.read_frame = cs.get ⟨m, hm⟩ := by
  obtain ⟨h1, h2, h3, h4, h5, h6⟩ := h
  have hmlt : m < cs.length := by omega
  constructor
  · refine ⟨by omega, by omega, ?_, ?_, ?_, ?_⟩
    · show (fb.readable_count + (wordMod - 1)) % wordMod = cs.length - (m + 1)
      rw [h3, dec_wrap (by omega) (by omega)]
      omega
    · show fb.write_frame = cs.length % N
      exact h4
    · show ((fb.read_frame + 1) % wordMod) % N = (m + 1) % N
      rw [h5, ring_advance hNw (Nat.mod_lt _ hN), Nat.mod_add_mod]
    · intro i him hi
      exact h6 i (by omega) hi
  · exact ⟨hmlt, by rw [h5]; exact h6 m (Nat.le_refl _) hmlt⟩

/-- Soundness of the invariant along any legal run, together with the FIFO
characterisation of the drained values. -/
lemma poolRun_inv {α : Type} {N : Nat} (hN : 0 < N) (hNw : N < wordMod) :
    ∀ (ops : List (PoolOp α)) (cs : List α) (m : Nat) (fb fb' : FrameBuffer α N)
      (outs : List α),
      PoolInv cs m fb → poolRun fb ops = some (fb', outs) →
      PoolInv (cs ++ committedVals ops) (m + numReleases ops) fb' ∧
      outs = ((cs ++ committedVals ops).drop m).take (numReleases ops) := by
  intro ops
  induction ops with
  | nil =>
    intro cs m fb fb' outs hinv hrun
    simp [poolRun] at hrun
    obtain ⟨rfl, rfl⟩ := hrun
    simpa [committedVals, numReleases] using hinv
  | cons op ops ih =>
    intro cs m fb fb' outs hinv hrun
    cases op with
    | commit x =>
      rcases hwf : fb.writeable_frame with _ | slot
      · simp [poolRun, poolStep, hwf] at hrun
      · have hg : fb.readable_count < N := by
          by_contra hge
          simp [FrameBuffer.writeable_frame, Nat.le_of_not_lt hge] at hwf
        have hslot : slot = fb.write_frame := by
          simp [FrameBuffer.writeable_frame, Nat.not_le_of_lt hg] at hwf
          exact hwf.symm
        subst hslot
        rcases hrec : poolRun ((fb.storeAt fb.write_frame x).written) ops with _ | ⟨fb2, outs2⟩
        · simp [poolRun, poolStep, hwf, hrec] at hrun
        · simp [poolRun, poolStep, hwf, hrec] at hrun
          obtain ⟨rfl, rfl⟩ := hrun
          have hinv' := poolInv_commit hN hNw hinv hg x
          have hmain := ih (cs ++ [x]) m _ fb2 outs2 hinv' hrec
          constructor
          · have := hmain.1
            simpa [committedVals, numReleases, List.append_assoc] using this
          · have := hmain.2
            simpa [committedVals, numReleases, List.append_assoc] using this
    | release =>
      rcases hrf : fb.readable_frame with _ | slot
      · simp [poolRun, poolStep, hrf] at hrun
      · have hg : 0 < fb.readable_count := by
          by_contra hz
          simp [FrameBuffer.readable_frame, Nat.eq_zero_of_not_pos hz] at hrf
        have hslot : slot = fb.read_frame := by
          simp [FrameBuffer.readable_frame, Nat.pos_iff_ne_zero.mp hg] at hrf
          exact hrf.symm
        subst hslot
        rcases hrec : poolRun fb.read ops with _ | ⟨fb2, outs2⟩
        · simp [poolRun, poolStep, hrf, hrec] at hrun
        · simp [poolRun, poolStep, hrf, hrec] at hrun
          obtain ⟨rfl, rfl⟩ := hrun
          obtain ⟨hinv', hmlt, hval⟩ := poolInv_release hN hNw hinv hg
          have hmain := ih cs (m + 1) _ fb2 outs2 hinv' hrec
          have hmlen : m < (cs ++ committedVals ops).length := by
            rw [List.length_append]; omega
          constructor
          · have := hmain.1
            have harith : m + numReleases (PoolOp.release :: (ops : List (PoolOp α))) =
                m + 1 + numReleases ops := by
              simp [numReleases]; omega
            rw [show committedVals (PoolOp.release :: ops) = committedVals ops from rfl,
              harith]
            exact this
          · rw [show committedVals (PoolOp.release :: ops) = committedVals ops from rfl,
              show numReleases (PoolOp.release :: ops) = numReleases ops + 1 from rfl]
            rw [List.drop_eq_getElem_cons hmlen, List.take_succ_cons]
            rw [List.getElem_append_left hmlt]
            have hhead : fb.frames fb.read_frame = cs[m] := by
              rw [hval]
              simp [List.get_eq_getElem]
            rw [hhead, hmain.2]

/-- Running a concatenated operation sequence is running the pieces in turn. -/
lemma poolRun_append {α : Type} {N : Nat} (fb : FrameBuffer α N)
    (l1 l2 : List (PoolOp α)) :
    poolRun fb (l1 ++ l2) =
      match poolRun fb l1 with
      | none => none
      | some (fb1, o1) =>
        match poolRun fb1 l2 with
        | none => none
        | some (fb2, o2) => some (fb2, o1 ++ o2) := by
  induction l1 generalizing fb with
  | nil =>
    simp only [List.nil_append, poolRun]
    rcases h2 : poolRun fb l2 with _ | ⟨fb2, o2⟩ <;> simp
  | cons op l1 ih =>
    rcases hs : poolStep fb op with _ | ⟨fb1, out⟩
    · simp [poolRun, hs]
    · simp only [List.cons_append, poolRun, hs, List.append_eq]
      rw [ih fb1]
      rcases h1 : poolRun fb1 l1 with _ | ⟨fbA, oA⟩
      · rfl
      · rcases h2 : poolRun fbA l2 with _ | ⟨fbB, oB⟩
        · simp [h2]
        · simp [h2, List.append_assoc]

lemma committedVals_length {α : Type} (ops : List (PoolOp α)) :
    (committedVals ops).length = numCommits ops := by
  induction ops with
  | nil => rfl
  | cons op ops ih => cases op <;> simp [committedVals, numCommits, ih]

/-- C1: mutual exclusion of handles.  After any legal sequence of pool
operations from `Init`, (i) whenever `0 < readable_count_ < kNumFrames` the
producer slot `frames_[write_frame_]` and consumer slot `frames_[read_frame_]`
are distinct, (ii) `writeable_frame()` and `readable_frame()` never return
pointers to the same slot, and (iii) at `readable_count_ = 0` or
`= kNumFrames` one of the two handles is null. -/
theorem C1_handle_mutual_exclusion {α : Type} {N : Nat} (hN : 0 < N)
    (hNw : N < wordMod) (blank : α) (ops : List (PoolOp α))
    (fb : FrameBuffer α N) (outs : List α)
    (hrun : poolRun (FrameBuffer.init blank) ops = some (fb, outs)) :
    ((0 < fb.readable_count ∧ fb.readable_count < N) →
      fb.write_frame ≠ fb.read_frame) ∧
    (∀ i j, fb.writeable_frame = some i → fb.readable_frame = some j → i ≠ j) ∧
    (fb.readable_count = 0 → fb.readable_frame = none) ∧
    (fb.readable_count = N → fb.writeable_frame = none) := by
  obtain ⟨hinv, -⟩ :=
    poolRun_inv hN hNw ops [] 0 _ fb outs (poolInv_init hN blank) hrun
  obtain ⟨h1, h2, h3, h4, h5, -⟩ := hinv
  simp only [List.nil_append, Nat.zero_add] at h1 h2 h3 h4 h5
  have hA : (0 < fb.readable_count ∧ fb.readable_count < N) →
      fb.write_frame ≠ fb.read_frame := by
    rintro ⟨hpos, hlt⟩
    rw [h4, h5]
    exact mod_ne_of_close hN (by omega) (by omega)
  refine ⟨hA, ?_, ?_, ?_⟩
  · intro i j hwf hrf
    have hlt : fb.readable_count < N := by
      by_contra hge
      simp [FrameBuffer.writeable_frame, Nat.le_of_not_lt hge] at hwf
    have hpos : 0 < fb.readable_count := by
      by_contra hz
      simp [FrameBuffer.readable_frame, Nat.eq_zero_of_not_pos hz] at hrf
    have hi : i = fb.write_frame := by
      simp [FrameBuffer.writeable_frame, Nat.not_le_of_lt hlt] at hwf
      exact hwf.symm
    have hj : j = fb.read_frame := by
      simp [FrameBuffer.readable_frame, Nat.pos_iff_ne_zero.mp hpos] at hrf
      exact hrf.symm
    rw [hi, hj]
    exact hA ⟨hpos, hlt⟩
  · intro h0
    simp [FrameBuffer.readable_frame, h0]
  · intro hNc
    simp [FrameBuffer.writeable_frame, hNc]

/-- The pool state after `commit 5` from `Init` with `kNumFrames = 2`. -/
def demoFB1 : FrameBuffer Nat 2 :=
  ⟨fun i => if i = 0 then 5 else 0, 1, 0, 1⟩

/-- Witness for C1 at a concrete input: `N = 2`, one committed frame. -/
theorem C1_handle_mutual_exclusion_witness :
    poolRun (FrameBuffer.init (0 : Nat) (N := 2)) [PoolOp.commit 5] =
      some (demoFB1, []) ∧
    demoFB1.write_frame ≠ demoFB1.read_frame ∧
    demoFB1.writeable_frame = some 1 ∧ demoFB1.readable_frame = some 0 := by
  have hrun : poolRun (FrameBuffer.init (0 : Nat) (N := 2)) [PoolOp.commit 5] =
      some (demoFB1, []) := rfl
  have h := C1_handle_mutual_exclusion (by decide) (by decide) 0
    [PoolOp.commit 5] demoFB1 [] hrun
  exact ⟨hrun, h.1 ⟨by decide, by decide⟩, rfl, rfl⟩

/-- C5: FIFO order.  On every legal run the drained values are exactly the
first `numReleases` committed values, in commit order. -/
theorem C5_fifo_order {α : Type} {N : Nat} (hN : 0 < N) (hNw : N < wordMod)
    (blank : α) (ops : List (PoolOp α)) (fb : FrameBuffer α N) (outs : List α)
    (hrun : poolRun (FrameBuffer.init blank) ops = some (fb, outs)) :
    outs = (committedVals ops).take (numReleases ops) := by
  obtain ⟨-, hout⟩ :=
    poolRun_inv hN hNw ops [] 0 _ fb outs (poolInv_init hN blank) hrun
  simpa using hout

/-- The spec's FIFO scenario for `N = 2`: commit A, commit B, release,
commit C (delayed until the release freed a slot), release, release. -/
def demoOps : List (PoolOp Nat) :=
  [PoolOp.commit 10, PoolOp.commit 20, PoolOp.release,
   PoolOp.commit 30, PoolOp.release, PoolOp.release]

/-- Final pool state of `demoOps` from `Init` with `kNumFrames = 2`. -/
def demoFBend : FrameBuffer Nat 2 :=
  ⟨fun i => if i = 0 then 30 else if i = 1 then 20 else if i = 0 then 10 else 0,
   1, 1, 0⟩

/-- Witness for C5: the three frames 10, 20, 30 drain in commit order. -/
theorem C5_fifo_order_witness :
    poolRun (FrameBuffer.init (0 : Nat) (N := 2)) demoOps =
      some (demoFBend, [10, 20, 30]) ∧
    [10, 20, 30] = (committedVals demoOps).take (numReleases demoOps) := by
  have hrun : poolRun (FrameBuffer.init (0 : Nat) (N := 2)) demoOps =
      some (demoFBend, [10, 20, 30]) := rfl
  exact ⟨hrun,
    C5_fifo_order (by decide) (by decide) 0 demoOps demoFBend [10, 20, 30] hrun⟩

/-- C6: conservation.  Every prefix of a legal sequence is itself legal, and
after any prefix `readable_count_` equals the number of commits minus the
number of releases in that prefix, with `releases ≤ commits` and
`readable_count_ ≤ kNumFrames`. -/
theorem C6_conservation {α : Type} {N : Nat} (hN : 0 < N) (hNw : N < wordMod)
    (blank : α) (ops : List (PoolOp α)) (fb : FrameBuffer α N) (outs : List α)
    (hrun : poolRun (FrameBuffer.init blank) ops = some (fb, outs)) :
    (∀ j, (poolRun (FrameBuffer.init blank (N := N)) (ops.take j)).isSome = true) ∧
    (∀ (j : Nat) (fbj : FrameBuffer α N) (outsj : List α),
      poolRun (FrameBuffer.init blank) (ops.take j) = some (fbj, outsj) →
      numReleases (ops.take j) ≤ numCommits (ops.take j) ∧
      fbj.readable_count = numCommits (ops.take j) - numReleases (ops.take j) ∧
      fbj.readable_count ≤ N) := by
  constructor
  · intro j
    have hsplit :=
      poolRun_append (FrameBuffer.init blank (N := N)) (ops.take j) (ops.drop j)
    rw [List.take_append_drop, hrun] at hsplit
    rcases hpre : poolRun (FrameBuffer.init blank (N := N)) (ops.take j) with _ | p
    · rw [hpre] at hsplit
      simp at hsplit
    · simp
  · intro j fbj outsj hprej
    obtain ⟨hinv, -⟩ := poolRun_inv hN hNw (ops.take j) [] 0 _ fbj outsj
      (poolInv_init hN blank) hprej
    obtain ⟨h1, h2, h3, -, -, -⟩ := hinv
    simp only [List.nil_append, Nat.zero_add] at h1 h2 h3
    rw [committedVals_length] at h1 h2 h3
    exact ⟨h1, h3, by omega⟩

/-- Pool state after the first three operations of `demoOps`. -/
def demoFB3 : FrameBuffer Nat 2 :=
  ⟨fun i => if i = 1 then 20 else if i = 0 then 10 else 0, 0, 1, 1⟩

/-- Witness for C6 at the prefix of length 3 of the demo sequence. -/
theorem C6_conservation_witness :
    poolRun (FrameBuffer.init (0 : Nat) (N := 2)) (demoOps.take 3) =
      some (demoFB3, [10]) ∧
    numReleases (demoOps.take 3) ≤ numCommits (demoOps.take 3) ∧
    demoFB3.readable_count =
      numCommits (demoOps.take 3) - numReleases (demoOps.take 3) ∧
    demoFB3.readable_count ≤ 2 := by
  have hrun : poolRun (FrameBuffer.init (0 : Nat) (N := 2)) demoOps =
      some (demoFBend, [10, 20, 30]) := rfl
  have hpre : poolRun (FrameBuffer.init (0 : Nat) (N := 2)) (demoOps.take 3) =
      some (demoFB3, [10]) := rfl
  have h := (C6_conservation (by decide) (by decide) 0 demoOps demoFBend
    [10, 20, 30] hrun).2 3 demoFB3 [10] hpre
  exact ⟨hpre, h.1, h.2.1, h.2.2⟩

/-! ### PagedDisplayDriver (page_display_driver.h)

State of `PagedDisplayDriver<display_driver>`: `frame_` is the `const uint8_t*`
cursor into the slot being drained (`none` = `nullptr`), modelled as a byte
address; `page_` is the `size_t` page counter.  The sink
(`display_driver::SendPage`) is an injected capability
`send : pageIndex → dataPointer → sinkState → accepted × sinkState`. -/

structure Paged where
  frame_ : Option Nat
  page_ : Nat

namespace Paged

/-- Driver state established by `Init()` (page_display_driver.h lines 16-20). -/
def init : Paged := ⟨none, 0⟩

/-- `Begin(frame)`: latch the frame pointer, reset the page counter
(page_display_driver.h lines 27-30). -/
def Begin (frame : Nat) : Paged := ⟨some frame, 0⟩

/-- `frame_valid()`: `frame_ != nullptr` (page_display_driver.h lines 32-34). -/
def frame_valid (d : Paged) : Bool := d.frame_.isSome

/-- `Update()` (page_display_driver.h lines 36-45): if a frame is active, call
`SendPage(page_, frame_)` once; on acceptance advance `frame_` by `kPageSize`
and `page_` by 1 (`size_t` arithmetic) and drop the frame once
`page_ >= kNumPages`.  The third result component records the `SendPage`
invocations `(page index, data pointer)` made during this call. -/
def update {σ : Type} (send : Nat → Nat → σ → Bool × σ) (d : Paged) (s : σ) :
    Paged × σ × List (Nat × Nat) :=
  match d.frame_ with
  | none => (d, s, [])
  | some ptr =>
    let r := send d.page_ ptr s
    if r.1 then
      let ptr1 := (ptr + kPageSize) % wordMod
      let page1 := (d.page_ + 1) % wordMod
      (⟨if kNumPages ≤ page1 then none else some ptr1, page1⟩, r.2, [(d.page_, ptr)])
    else (d, r.2, [(d.page_, ptr)])

/-- The value returned by `Flush()` (page_display_driver.h lines 22-25):
`display_driver::Flush()` touches none of the modelled state (it is empty for
the ILI9341 backend), and the result is `frame_ == nullptr`. -/
def FlushResult (d : Paged) : Bool := decide (d.frame_ = none)

end Paged

/-- Iterate `Update()` against a sink, threading driver and sink state. -/
def iterUpdate {σ : Type} (send : Nat → Nat → σ → Bool × σ) :
    Nat → Paged × σ → Paged × σ
  | 0, p => p
  | n + 1, p =>
    let r := Paged.update send p.1 p.2
    iterUpdate send n (r.1, r.2.1)

/-! ### display::Update / display::Flush (display.h) -/

/-- Combined state of `display::frame_buffer` and `display::driver`
(display.cpp lines 10-11, with `kNumFrames = 2` in the source instance). -/
structure DisplaySys (α : Type) (N : Nat) where
  fb : FrameBuffer α N
  drv : Paged

/-- `display::Update()` (display.h lines 30-38): if the driver holds a frame,
run one `driver.Update()`; otherwise, if the pool has a readable slot, begin
draining it.  The pointer handed to `Begin` is `frame_buffer.readable_frame()`,
i.e. `&frames_[read_frame_][0]`, byte address `read_frame_ * kFrameSize`. -/
def displayUpdate {α : Type} {N : Nat} {σ : Type}
    (send : Nat → Nat → σ → Bool × σ) (sys : DisplaySys α N) (s : σ) :
    DisplaySys α N × σ × List (Nat × Nat) :=
  match sys.drv.frame_ with
  | some _ =>
    let r := sys.drv.update send s
    ({ sys with drv := r.1 }, r.2.1, r.2.2)
  | none =>
    if sys.fb.readable then
      ({ sys with drv := Paged.Begin (sys.fb.read_frame * kFrameSize) }, s, [])
    else (sys, s, [])

/-- `display::Flush()` (display.h lines 24-28): `driver.Flush()` returns
`frame_ == nullptr`; whenever it does, `frame_buffer.read()` is called. -/
def displayFlush {α : Type} {N : Nat} (sys : DisplaySys α N) : DisplaySys α N :=
  if sys.drv.FlushResult then { sys with fb := sys.fb.read } else sys

/-- C7: idempotent retry.  If `SendPage` rejects during an `Update()` call,
that call leaves `page_` and `frame_` unchanged and its single `SendPage`
invocation was `(page_, frame_)`; under a persistently rejecting sink, any
number of consecutive `Update()` calls leaves the driver unchanged and every
next call again invokes `SendPage` with the same page index and the same
pointer (hence the identical bytes, which no modelled operation mutates). -/
theorem C7_idempotent_retry {σ : Type} (send : Nat → Nat → σ → Bool × σ)
    (d : Paged) (s : σ) (ptr : Nat) (hf : d.frame_ = some ptr) :
    ((send d.page_ ptr s).1 = false →
      (d.update send s).1 = d ∧ (d.update send s).2.2 = [(d.page_, ptr)]) ∧
    ((∀ p q t, (send p q t).1 = false) →
      ∀ n, (iterUpdate send n (d, s)).1 = d ∧
        ((iterUpdate send n (d, s)).1.update send
            (iterUpdate send n (d, s)).2).2.2 = [(d.page_, ptr)]) := by
  have hstep : ∀ t : σ, (send d.page_ ptr t).1 = false →
      (d.update send t).1 = d ∧ (d.update send t).2.2 = [(d.page_, ptr)] := by
    intro t ht
    constructor <;> simp [Paged.update, hf, ht]
  refine ⟨hstep s, ?_⟩
  intro hrej n
  have hiter : ∀ (n : Nat) (t : σ), (iterUpdate send n (d, t)).1 = d := by
    intro n
    induction n with
    | zero => intro t; rfl
    | succ n ih =>
      intro t
      have h1 := (hstep t (hrej _ _ _)).1
      show (iterUpdate send n ((d.update send t).1, (d.update send t).2.1)).1 = d
      rw [h1]
      exact ih _
  refine ⟨hiter n s, ?_⟩
  rw [hiter n s]
  exact (hstep _ (hrej _ _ _)).2

/-- Sink that rejects every page (σ = Unit). -/
def rejectSend : Nat → Nat → Unit → Bool × Unit := fun _ _ t => (false, t)

/-- Driver state: draining a frame at address 100, next page 3. -/
def c7drv : Paged := ⟨some 100, 3⟩

/-- Witness for C7: five consecutive rejections leave the driver unchanged
and the sixth call still sends page 3 at pointer 100. -/
theorem C7_idempotent_retry_witness :
    (iterUpdate rejectSend 5 (c7drv, ())).1 = c7drv ∧
    ((iterUpdate rejectSend 5 (c7drv, ())).1.update rejectSend
        (iterUpdate rejectSend 5 (c7drv, ())).2).2.2 = [(3, 100)] := by
  have h := C7_idempotent_retry rejectSend c7drv () 100 rfl
  have h5 := h.2 (fun _ _ _ => rfl) 5
  exact ⟨h5.1, h5.2⟩

/-- C8: bounded per-call work.  A single `display::Update()` (and a single
`PagedDisplayDriver::Update()`) makes at most one `SendPage` call, hence
transfers at most `kPageSize` bytes, and `page_` advances by at most 1. -/
theorem C8_bounded_per_call_work {α : Type} {N : Nat} {σ : Type}
    (send : Nat → Nat → σ → Bool × σ) (sys : DisplaySys α N) (s : σ)
    (d : Paged) (t : σ) :
    (displayUpdate send sys s).2.2.length ≤ 1 ∧
    (displayUpdate send sys s).2.2.length * kPageSize ≤ kPageSize ∧
    (d.update send t).2.2.length ≤ 1 ∧
    ((d.update send t).1.page_ = d.page_ ∨
      (d.update send t).1.page_ = (d.page_ + 1) % wordMod) := by
  have hdrv : ∀ (d : Paged) (t : σ), (d.update send t).2.2.length ≤ 1 ∧
      ((d.update send t).1.page_ = d.page_ ∨
        (d.update send t).1.page_ = (d.page_ + 1) % wordMod) := by
    intro d t
    rcases hfr : d.frame_ with _ | ptr
    · simp [Paged.update, hfr]
    · by_cases hb : (send d.page_ ptr t).1 = true
      · simp [Paged.update, hfr, hb]
      · simp [Paged.update, hfr, Bool.of_not_eq_true hb]
  have hdisp : (displayUpdate send sys s).2.2.length ≤ 1 := by
    rcases hfr : sys.drv.frame_ with _ | ptr
    · by_cases hr : sys.fb.readable = true
      · simp [displayUpdate, hfr, hr]
      · simp [displayUpdate, hfr, Bool.of_not_eq_true hr]
    · have h1 := (hdrv sys.drv s).1
      simp only [displayUpdate, hfr]
      exact h1
  have hk : kPageSize = 128 := rfl
  exact ⟨hdisp, by rw [hk]; omega, (hdrv d t).1, (hdrv d t).2⟩

/-- C2, counterexample state: one published slot (`readable_count_ = 1`,
`read_frame_ = 0`), driver draining it with the last page pending
(`frame_` at byte 896 = 7 * kPageSize into slot 0, `page_ = 7`). -/
def c2sys : DisplaySys Unit 2 :=
  ⟨⟨fun _ => (), 1, 0, 1⟩, ⟨some 896, 7⟩⟩

/-- Sink that accepts every page (σ = Unit). -/
def acceptSend : Nat → Nat → Unit → Bool × Unit := fun _ _ _ => (true, ())

/-- C2 as stated is false: in the `display::Update()` call in which `SendPage`
accepts the frame's last page (index `kNumPages - 1 = 7`), the slot is NOT
released — `readable_count_` stays 1 and `read_frame_` stays 0 (the release
happens only in the next `display::Flush()`). -/
theorem C2_atomic_release_counterexample :
    (displayUpdate acceptSend c2sys ()).2.2 = [(7, 896)] ∧
    (displayUpdate acceptSend c2sys ()).1.drv.frame_ = none ∧
    (displayUpdate acceptSend c2sys ()).1.fb.readable_count = 1 ∧
    (displayUpdate acceptSend c2sys ()).1.fb.read_frame = 0 ∧
    c2sys.fb.readable_count = 1 ∧ c2sys.fb.read_frame = 0 :=
  ⟨rfl, rfl, rfl, rfl, rfl, rfl⟩

/-- C2 amended: when `SendPage` accepts the last page inside
`display::Update()`, that call only resets `frame_` to null and sets `page_`
to `kNumPages` (so `frame_` is non-null iff `page_ < kNumPages` afterwards)
and leaves the pool untouched; the release — `readable_count_` decremented by
1 and `read_frame_` advanced by 1 mod N — happens at the next
`display::Flush()`, and once it has (with no further frame queued) a
subsequent `display::Update()` is a no-op making no `SendPage` call (Idle). -/
theorem C2_release_via_flush {α : Type} {N : Nat} {σ : Type}
    (send : Nat → Nat → σ → Bool × σ) (sys : DisplaySys α N) (s : σ) (ptr : Nat)
    (hf : sys.drv.frame_ = some ptr) (hp : sys.drv.page_ = kNumPages - 1)
    (hacc : (send sys.drv.page_ ptr s).1 = true) :
    (displayUpdate send sys s).1.drv.frame_ = none ∧
    (displayUpdate send sys s).1.drv.page_ = kNumPages ∧
    (displayUpdate send sys s).1.fb = sys.fb ∧
    ((displayUpdate send sys s).1.drv.frame_.isSome = true ↔
      (displayUpdate send sys s).1.drv.page_ < kNumPages) ∧
    (displayFlush (displayUpdate send sys s).1).fb = sys.fb.read ∧
    (sys.fb.readable_count = 1 →
      (displayFlush (displayUpdate send sys s).1).fb.readable_count = 0 ∧
      (displayFlush (displayUpdate send sys s).1).fb.read_frame =
        ((sys.fb.read_frame + 1) % wordMod) % N ∧
      ∀ t : σ, displayUpdate send (displayFlush (displayUpdate send sys s).1) t =
        ((displayFlush (displayUpdate send sys s).1), t, [])) := by
  have hpage : (sys.drv.page_ + 1) % wordMod = kNumPages := by
    rw [hp]; decide
  have hupd : sys.drv.update send s =
      (⟨none, kNumPages⟩, (send sys.drv.page_ ptr s).2, [(sys.drv.page_, ptr)]) := by
    simp [Paged.update, hf, hacc, hpage]
  have hdisp : displayUpdate send sys s =
      ({ sys with drv := ⟨none, kNumPages⟩ },
        (send sys.drv.page_ ptr s).2, [(sys.drv.page_, ptr)]) := by
    simp [displayUpdate, hf, hupd]
  have hflush : displayFlush (displayUpdate send sys s).1 =
      { sys with fb := sys.fb.read, drv := ⟨none, kNumPages⟩ } := by
    rw [hdisp]
    simp [displayFlush, Paged.FlushResult]
  refine ⟨by rw [hdisp], by rw [hdisp], by rw [hdisp], by rw [hdisp]; simp [kNumPages],
    by rw [hflush], ?_⟩
  intro hc
  have hcnt : (sys.fb.read).readable_count = 0 := by
    show (sys.fb.readable_count + (wordMod - 1)) % wordMod = 0
    rw [hc]; decide
  refine ⟨by rw [hflush]; exact hcnt, by rw [hflush]; rfl, ?_⟩
  intro t
  rw [hflush]
  have hread : (FrameBuffer.readable (sys.fb.read) : Bool) = false := by
    simp [FrameBuffer.readable, hcnt]
  simp [displayUpdate, hread]

/-- Witness for the amended C2 at the concrete state `c2sys`. -/
theorem C2_release_via_flush_witness :
    (displayUpdate acceptSend c2sys ()).1.drv.frame_ = none ∧
    (displayUpdate acceptSend c2sys ()).1.drv.page_ = kNumPages ∧
    (displayFlush (displayUpdate acceptSend c2sys ()).1).fb.readable_count = 0 ∧
    displayUpdate acceptSend (displayFlush (displayUpdate acceptSend c2sys ()).1) () =
      ((displayFlush (displayUpdate acceptSend c2sys ()).1), (), []) := by
  have h := C2_release_via_flush acceptSend c2sys () 896 rfl rfl rfl
  obtain ⟨h1, h2, -, -, -, h6⟩ := h
  obtain ⟨h7, -, h9⟩ := h6 rfl
  exact ⟨h1, h2, h7, h9 ()⟩

/-- C3: idle-state release underflow.  `display::Flush()` calls
`frame_buffer.read()` whenever the driver holds no frame; with
`readable_count_ = 0` (nothing ever published, or the engine idle after a
release) the unsigned decrement wraps the counter to `2^32 - 1`, after which
`writeable()` is false and `readable()` is true although no frame exists. -/
theorem C3_flush_underflow {α : Type} {N : Nat} (hNw : N < wordMod)
    (sys : DisplaySys α N) (hf : sys.drv.frame_ = none)
    (hc : sys.fb.readable_count = 0) :
    displayFlush sys = { sys with fb := sys.fb.read } ∧
    (displayFlush sys).fb.readable_count = wordMod - 1 ∧
    (displayFlush sys).fb.writeable = false ∧
    (displayFlush sys).fb.readable = true := by
  have hflush : displayFlush sys = { sys with fb := sys.fb.read } := by
    simp [displayFlush, Paged.FlushResult, hf]
  have hcnt : (sys.fb.read).readable_count = wordMod - 1 := by
    show (sys.fb.readable_count + (wordMod - 1)) % wordMod = wordMod - 1
    rw [hc]; decide
  refine ⟨hflush, by rw [hflush]; exact hcnt, ?_, ?_⟩
  · rw [hflush]
    show decide ((sys.fb.read).readable_count < N) = false
    rw [hcnt]
    have hw : wordMod = 4294967296 := rfl
    simp only [decide_eq_false_iff_not, not_lt]
    omega
  · rw [hflush]
    show decide (0 < (sys.fb.read).readable_count) = true
    rw [hcnt]
    decide

/-- The display system right after `display::Init()` with `kNumFrames = 2`:
empty pool, no active frame. -/
def c3sys : DisplaySys Unit 2 := ⟨FrameBuffer.init (), Paged.init⟩

/-- Witness for C3: a `Flush` from the freshly initialised state wraps
`readable_count_` to `2^32 - 1`. -/
theorem C3_flush_underflow_witness :
    (displayFlush c3sys).fb.readable_count = wordMod - 1 ∧
    (displayFlush c3sys).fb.writeable = false ∧
    (displayFlush c3sys).fb.readable = true := by
  have h := C3_flush_underflow (by decide) c3sys rfl rfl
  exact ⟨h.2.1, h.2.2.1, h.2.2.2⟩

/-! ### GRAPHICS_BEGIN_FRAME / GRAPHICS_END_FRAME (display.h lines 44-59) -/

/-- One iteration of the inner wait loop of `GRAPHICS_BEGIN_FRAME(wait)`
(display.h lines 47-50).  The loop body is exactly
`if (display::frame_buffer.writeable()) frame = display::frame_buffer.writeable_frame();`
— it probes the pool and nothing else; in particular it contains no call to
the transfer engine (`display::Update` / `driver.Update`).  The result is
(the pointer acquired by this iteration if any, the pool state after the
iteration, the number of engine step() invocations the iteration performed). -/
def beginFrameIter {α : Type} {N : Nat} (fb : FrameBuffer α N) :
    Option Nat × FrameBuffer α N × Nat :=
  (if fb.writeable then fb.writeable_frame else none, fb, 0)

/-- A full pool with `kNumFrames = 2`: both slots published, none drained. -/
def fullFB : FrameBuffer Unit 2 := ⟨fun _ => (), 0, 0, 2⟩

/-- C4 as stated is false: with the pool full and `wait = true`, a wait-loop
iteration of `GRAPHICS_BEGIN_FRAME` performs zero invocations of the transfer
engine's step() (the body is a bare probe), contradicting the claim that
every wait iteration also invokes step(). -/
theorem C4_cooperative_wait_counterexample :
    (beginFrameIter fullFB).1 = none ∧
    (beginFrameIter fullFB).2.2 = 0 ∧
    ¬ 1 ≤ (beginFrameIter fullFB).2.2 :=
  ⟨rfl, rfl, by decide⟩

/-- C4 amended: the blocking wait loop of `GRAPHICS_BEGIN_FRAME(true)` spins
on `writeable()`/`writeable_frame()` without ever invoking the engine's
step(); while the pool is full every iteration acquires nothing, performs
zero step() invocations and leaves the pool unchanged, so no number of
iterations makes progress from within the loop. -/
theorem C4_wait_loop_spins {α : Type} {N : Nat} (fb : FrameBuffer α N)
    (hc : fb.readable_count = N) :
    (beginFrameIter fb).1 = none ∧
    (beginFrameIter fb).2.1 = fb ∧
    (beginFrameIter fb).2.2 = 0 ∧
    ∀ n, (fun st => (beginFrameIter st).2.1)^[n] fb = fb := by
  have hw : fb.writeable = false := by
    simp [FrameBuffer.writeable, hc]
  refine ⟨by simp [beginFrameIter, hw], rfl, rfl, ?_⟩
  intro n
  induction n with
  | zero => rfl
  | succ n ih =>
    rw [Function.iterate_succ_apply]
    exact ih

/-- Witness for the amended C4 at the concrete full pool. -/
theorem C4_wait_loop_spins_witness :
    (beginFrameIter fullFB).1 = none ∧
    (fun st => (beginFrameIter st).2.1)^[3] fullFB = fullFB := by
  have h := C4_wait_loop_spins fullFB rfl
  exact ⟨h.1, h.2.2.2 3⟩

/-- `GRAPHICS_BEGIN_FRAME(false)` through `GRAPHICS_END_FRAME` (display.h
lines 44-59): with `wait = false` the probe loop runs exactly once; on
success the drawing body writes `draw` into the acquired slot and
`written()` commits it, on failure (`frame == NULL`) the body and the commit
are skipped.  Returns the pool state afterwards and whether a frame was
produced. -/
def graphicsFrameNoWait {α : Type} {N : Nat} (draw : α) (fb : FrameBuffer α N) :
    FrameBuffer α N × Bool :=
  match (if fb.writeable then fb.writeable_frame else none) with
  | some slot => ((fb.storeAt slot draw).written, true)
  | none => (fb, false)

/-- C9: non-blocking drop.  When the pool is full, `GRAPHICS_BEGIN_FRAME`
with `wait = false` produces no frame (the drawing body is skipped and no
commit occurs), the pool state is returned unchanged, and the probe itself
(`writeable()` false, `writeable_frame()` null) mutates nothing — both are
pure queries of the state. -/
theorem C9_nonblocking_drop {α : Type} {N : Nat} (draw : α)
    (fb : FrameBuffer α N) (hc : fb.readable_count = N) :
    graphicsFrameNoWait draw fb = (fb, false) ∧
    fb.writeable = false ∧
    fb.writeable_frame = none := by
  have hw : fb.writeable = false := by
    simp [FrameBuffer.writeable, hc]
  have hwf : fb.writeable_frame = none := by
    simp [FrameBuffer.writeable_frame, hc]
  exact ⟨by simp [graphicsFrameNoWait, hw], hw, hwf⟩

/-- Witness for C9 at the concrete full pool. -/
theorem C9_nonblocking_drop_witness :
    graphicsFrameNoWait () fullFB = (fullFB, false) ∧
    fullFB.writeable_frame = none := by
  have h := C9_nonblocking_drop () fullFB rfl
  exact ⟨h.1, h.2.2⟩

/-! ### ILI9341_Driver::SendPage (ILI9341_Driver.cpp) -/

/-- `DISPLAY_SCALE` (ILI9341_Driver.h line 58). -/
def DISPLAY_SCALE : Nat := 2

/-- `DISPLAY_OFFSET_X = (320 - 128 * DISPLAY_SCALE) / 2` (ILI9341_Driver.h). -/
def DISPLAY_OFFSET_X : Nat := (320 - 128 * DISPLAY_SCALE) / 2

/-- `DISPLAY_OFFSET_Y = (240 - 64 * DISPLAY_SCALE) / 2` (ILI9341_Driver.h). -/
def DISPLAY_OFFSET_Y : Nat := (240 - 64 * DISPLAY_SCALE) / 2

/-- One `tft.fillRect(x, y, w, h, color)` call; `fg` is true for the
foreground colour, false for background. -/
structure FillRect where
  x : Nat
  y : Nat
  w : Nat
  h : Nat
  fg : Bool

/-- The file-static state of ILI9341_Driver.cpp (lines 12-18): the
initialisation and flip flags, the `page_buffer` and `page_dirty` arrays, and
the list of rectangle fills issued to the `tft` device so far. -/
structure ILI9341State where
  display_initialized : Bool
  flip_mode : Bool
  page_buffer : Nat → Nat → Nat
  page_dirty : Nat → Bool
  draws : List FillRect

/-- `DrawScaledPixel(x, y, on)` (ILI9341_Driver.cpp lines 62-77), as the
`fillRect` it issues. -/
def drawScaledPixel (flip : Bool) (x y : Nat) (px : Bool) : FillRect :=
  let x1 := if flip then 128 - 1 - x else x
  let y1 := if flip then 64 - 1 - y else y
  ⟨DISPLAY_OFFSET_X + x1 * DISPLAY_SCALE, DISPLAY_OFFSET_Y + y1 * DISPLAY_SCALE,
   DISPLAY_SCALE, DISPLAY_SCALE, px⟩

/-- The pixel loop of `SendPage` (ILI9341_Driver.cpp lines 92-101): for each
of the 128 columns, draw the 8 pixels of byte `data[col]`, bit 0 on top. -/
def sendPageDraws (flip : Bool) (index : Nat) (data : Nat → Nat) :
    List FillRect :=
  (List.range 128).flatMap fun col =>
    (List.range 8).map fun bit =>
      drawScaledPixel flip col (index * 8 + bit) (decide ((data col >>> bit) % 2 = 1))

/-- `ILI9341_Driver::SendPage(index, data)` (ILI9341_Driver.cpp lines 80-104):
returns false with no state change when the display is uninitialised or
`index >= kNumPages`; otherwise copies `kPageSize` bytes into
`page_buffer[index]`, sets `page_dirty[index]`, draws the page's 128 x 8
pixels scaled, and returns true. -/
def ILI9341_SendPage (index : Nat) (data : Nat → Nat) (st : ILI9341State) :
    Bool × ILI9341State :=
  if st.display_initialized = false then (false, st)
  else if kNumPages ≤ index then (false, st)
  else
    (true,
      { st with
        page_buffer := fun p b =>
          if p = index ∧ b < kPageSize then data b else st.page_buffer p b
        page_dirty := fun p => if p = index then true else st.page_dirty p
        draws := st.draws ++ sendPageDraws st.flip_mode index data })

/-- The ILI9341 backend as the paged driver's sink capability: `μ` maps byte
addresses to memory bytes, and `SendPage(page, ptr)` reads
`data[col] = μ(ptr + col)`. -/
def iliSend (μ : Nat → Nat) : Nat → Nat → ILI9341State → Bool × ILI9341State :=
  fun p ptr st => ILI9341_SendPage p (fun col => μ (ptr + col)) st

/-- C10: sink rejection guard.  `ILI9341_Driver::SendPage` returns false with
no byte copied, no dirty flag set and no pixel drawn whenever the display is
uninitialised or the page index is at least `kNumPages`; consequently a
`PagedDisplayDriver::Update` against this sink under those conditions leaves
`page_`, `frame_` and the sink state unchanged. -/
theorem C10_sink_rejection_guard (st : ILI9341State) (idx : Nat)
    (data : Nat → Nat) (μ : Nat → Nat) (d : Paged)
    (hidx : st.display_initialized = false ∨ kNumPages ≤ idx) :
    ILI9341_SendPage idx data st = (false, st) ∧
    ((st.display_initialized = false ∨ kNumPages ≤ d.page_) →
      (d.update (iliSend μ) st).1 = d ∧ (d.update (iliSend μ) st).2.1 = st) := by
  have hrej : ∀ (i : Nat) (f : Nat → Nat),
      (st.display_initialized = false ∨ kNumPages ≤ i) →
      ILI9341_SendPage i f st = (false, st) := by
    intro i f hi
    rcases hi with hi | hi
    · simp [ILI9341_SendPage, hi]
    · by_cases hinit : st.display_initialized = false
      · simp [ILI9341_SendPage, hinit]
      · simp [ILI9341_SendPage, hinit, hi]
  refine ⟨hrej idx data hidx, ?_⟩
  intro hd
  rcases hfr : d.frame_ with _ | ptr
  · constructor <;> simp [Paged.update, hfr]
  · have hr := hrej d.page_ (fun col => μ (ptr + col)) hd
    constructor <;> simp [Paged.update, hfr, iliSend, hr]

/-- Uninitialised ILI9341 state (as before `Init()` runs). -/
def c10st : ILI9341State := ⟨false, false, fun _ _ => 0, fun _ => false, []⟩

/-- Driver about to send page 0 of a frame at address 0. -/
def c10drv : Paged := ⟨some 0, 0⟩

/-- Witness for C10: against the uninitialised sink, `SendPage` rejects with
no state change and `Update` makes no progress. -/
theorem C10_sink_rejection_guard_witness :
    ILI9341_SendPage 0 (fun _ => 0) c10st = (false, c10st) ∧
    (c10drv.update (iliSend (fun _ => 0)) c10st).1 = c10drv ∧
    (c10drv.update (iliSend (fun _ => 0)) c10st).2.1 = c10st := by
  have h := C10_sink_rejection_guard c10st 0 (fun _ => 0) (fun _ => 0) c10drv
    (Or.inl rfl)
  exact ⟨h.1, (h.2 (Or.inl rfl)).1, (h.2 (Or.inl rfl)).2⟩

end Conducteensy
